import Mathlib

/-!
Verification of the tm1-log-tracker OData client core (utils/odata.go and main.go).

The Go code is embedded shallowly.  Request construction is modelled as pure
functions building a `Request` value; the iteration / delta-tracking loops are
modelled as trace-producing functions driven by an injected finite list of
response bodies (the loops consume one injected body per HTTP round trip).
The `defer resp.Body.Close()` statements that sit inside the loops are modelled
faithfully to Go semantics: a deferred call runs when the surrounding function
returns, not at the end of the loop iteration, so the model carries the list of
pending (deferred, not yet executed) closes and emits them only at function
exit.  `log.Fatal` is `Print` followed by `os.Exit(1)`, and `os.Exit` does not
run deferred functions; the model of `ValidateStatusCode` reflects that.
-/

namespace OData

/-- An HTTP header as a name/value pair; net/http `Header.Add` appends pairs in order. -/
structure Header where
  name : String
  value : String
  deriving DecidableEq, Repr

/-- The request handed to `http.Client.Do`: method, URL, headers in insertion order,
and an optional body (`none` for the GET requests built here, Go passes `nil`). -/
structure Request where
  method : String
  url : String
  headers : List Header
  body : Option String
  deriving DecidableEq, Repr

/-- `http.NewRequest(method, urlStr, nil)`: a fresh request with no headers and no body. -/
def newRequest (method urlStr : String) : Request :=
  ⟨method, urlStr, [], none⟩

/-- `req.Header.Add(name, value)`: append the pair to the header list. -/
def addHeader (req : Request) (n v : String) : Request :=
  ⟨req.method, req.url, req.headers ++ [⟨n, v⟩], req.body⟩

/-- `ExecuteGETRequest` (odata.go lines 18-35): build a GET request on `urlStr`, add the
`OData-Version: 4.0` header, add the `Accept: application/json` header, execute it.
The model returns the request exactly as sent. -/
def ExecuteGETRequest (urlStr : String) : Request :=
  addHeader (addHeader (newRequest "GET" urlStr) "OData-Version" "4.0")
    "Accept" "application/json"

/-- `ExecuteGETRequestEx` (odata.go lines 37-56): the same construction, except that the
caller-supplied `preReq` hook receives the fully built request before it is sent. -/
def ExecuteGETRequestEx (urlStr : String) (preReq : Request → Request) : Request :=
  preReq (addHeader (addHeader (newRequest "GET" urlStr) "OData-Version" "4.0")
    "Accept" "application/json")

/-- The request `TrackCollection` sends on every cycle (odata.go line 126):
`ExecuteGETRequestEx` on `serviceRootURL ++ urlStr` with the hook that adds the
`Prefer: odata.track-changes` header. -/
def trackRequest (serviceRootURL urlStr : String) : Request :=
  ExecuteGETRequestEx (serviceRootURL ++ urlStr)
    (fun req => addHeader req "Prefer" "odata.track-changes")

/-- Observable step of a tracking / iteration run:
a request is sent, a response body is fully read (`ioutil.ReadAll`), the processing
callback is invoked on the body, the loop sleeps (`time.Sleep`, seconds), or a
response body is closed (`resp.Body.Close()` finally executing). -/
inductive Event where
  | request (req : Request)
  | readBody (body : String)
  | callback (body : String)
  | sleep (seconds : Int)
  | closeBody (body : String)
  deriving DecidableEq, Repr

/-- `TrackCollection`'s loop (odata.go lines 120-153), driven by the injected list of
response bodies, one consumed per request.  `pending` is the stack of deferred
`resp.Body.Close()` calls (most recent first): the `defer` sits inside the loop, so
the closes execute only when the function returns (normal exit through the loop
condition or `break`).  The `Bool` is `true` when the loop exited normally and
`false` when the injected responses ran out with the loop still going. -/
def TrackCollectionAux (serviceRootURL : String) (interval : Int)
    (process : String → String × String) :
    List String → String → List String → List Event × Bool
  | [], urlStr, pending =>
    if urlStr = "" then (pending.map Event.closeBody, true) else ([], false)
  | body :: rest, urlStr, pending =>
    if urlStr = "" then (pending.map Event.closeBody, true)
    else if (process body).1 ≠ "" then
      (Event.request (trackRequest serviceRootURL urlStr) :: Event.readBody body ::
          Event.callback body ::
          (TrackCollectionAux serviceRootURL interval process rest (process body).1
            (body :: pending)).1,
        (TrackCollectionAux serviceRootURL interval process rest (process body).1
          (body :: pending)).2)
    else if (process body).2 ≠ "" then
      (Event.request (trackRequest serviceRootURL urlStr) :: Event.readBody body ::
          Event.callback body :: Event.sleep interval ::
          (TrackCollectionAux serviceRootURL interval process rest (process body).2
            (body :: pending)).1,
        (TrackCollectionAux serviceRootURL interval process rest (process body).2
          (body :: pending)).2)
    else
      (Event.request (trackRequest serviceRootURL urlStr) :: Event.readBody body ::
          Event.callback body :: (body :: pending).map Event.closeBody,
        true)

/-- `TrackCollection(serviceRootURL, urlStr, interval, processResponse)` with the
injected response bodies: starts the loop with an empty deferred-close stack. -/
def TrackCollection (serviceRootURL urlStr : String) (interval : Int)
    (process : String → String × String) (responses : List String) :
    List Event × Bool :=
  TrackCollectionAux serviceRootURL interval process responses urlStr []

/-- `IterateCollection`'s loop (odata.go lines 102-118): like the tracker but with
plain `ExecuteGETRequest`, no sleeping, and a callback returning `(int, nextLink)`
of which only the link is used for continuation.  The `defer resp.Body.Close()`
inside the loop is modelled the same way. -/
def IterateCollectionAux (datasourceServiceRootURL : String)
    (process : String → Int × String) :
    List String → String → List String → List Event × Bool
  | [], nextLink, pending =>
    if nextLink = "" then (pending.map Event.closeBody, true) else ([], false)
  | body :: rest, nextLink, pending =>
    if nextLink = "" then (pending.map Event.closeBody, true)
    else
      (Event.request (ExecuteGETRequest (datasourceServiceRootURL ++ nextLink)) ::
          Event.readBody body :: Event.callback body ::
          (IterateCollectionAux datasourceServiceRootURL process rest (process body).2
            (body :: pending)).1,
        (IterateCollectionAux datasourceServiceRootURL process rest (process body).2
          (body :: pending)).2)

/-- `IterateCollection(datasourceServiceRootURL, urlStr, processResponse)` with the
injected response bodies. -/
def IterateCollection (datasourceServiceRootURL urlStr : String)
    (process : String → Int × String) (responses : List String) :
    List Event × Bool :=
  IterateCollectionAux datasourceServiceRootURL process responses urlStr []

/-- URLs of the requests in a trace, in order. -/
def requestURLs : List Event → List String
  | [] => []
  | Event.request r :: rest => r.url :: requestURLs rest
  | _ :: rest => requestURLs rest

/-- Bodies passed to the processing callback, in order. -/
def callbackBodies : List Event → List String
  | [] => []
  | Event.callback b :: rest => b :: callbackBodies rest
  | _ :: rest => callbackBodies rest

/-- Number of requests issued in a trace (each opens one response body). -/
def countRequests : List Event → Nat
  | [] => 0
  | Event.request _ :: rest => countRequests rest + 1
  | _ :: rest => countRequests rest

/-- Number of response bodies closed in a trace. -/
def countCloses : List Event → Nat
  | [] => 0
  | Event.closeBody _ :: rest => countCloses rest + 1
  | _ :: rest => countCloses rest

/-- A response as seen by `ValidateStatusCode`: numeric status code, status line
(`resp.Status`, e.g. "404 Not Found"), and the raw body text. -/
structure HTTPResponse where
  statusCode : Nat
  status : String
  body : String
  deriving DecidableEq, Repr

/-- Operations actually executed on a response body stream. -/
inductive BodyAction where
  | read
  | close
  deriving DecidableEq, Repr

/-- Result of `ValidateStatusCode`: normal return, or a fatal exit carrying the
diagnostic handed to `log.Fatal`. -/
inductive ValidateOutcome where
  | ok
  | fatal (msg : String)
  deriving DecidableEq, Repr

/-- `ValidateStatusCode` (odata.go lines 155-161).  On mismatch the code registers
`defer resp.Body.Close()`, drains the body with `ioutil.ReadAll`, and calls
`log.Fatal` on `logFmt() + "\r\nServer responded with: " + resp.Status + "\r\n" +
string(body)`.  `log.Fatal` is `Print` followed by `os.Exit(1)`, and `os.Exit`
terminates without running deferred functions, so the registered close never
executes: the body actions on the mismatch path are `[read]` only.  On match the
function does nothing and the body stays open. -/
def ValidateStatusCode (resp : HTTPResponse) (statusCode : Nat)
    (logFmt : Unit → String) : ValidateOutcome × List BodyAction :=
  if resp.statusCode ≠ statusCode then
    (ValidateOutcome.fatal
        (logFmt () ++ "\r\nServer responded with: " ++ resp.status ++ "\r\n" ++ resp.body),
      [BodyAction.read])
  else
    (ValidateOutcome.ok, [])

/-- Decimal value of a digit run, `none` if any character is not a digit
(Go `strconv.Atoi` rejects the whole string on any non-digit). -/
def digitsValAux : List Char → Nat → Option Nat
  | [], acc => some acc
  | c :: rest, acc =>
    if c.isDigit then digitsValAux rest (acc * 10 + (c.toNat - 48)) else none

/-- Value of a non-empty all-digit string; `none` when empty or not all digits. -/
def digitsVal : List Char → Option Nat
  | [] => none
  | cs => digitsValAux cs 0

/-- Syntactic integer parse: optional sign followed by at least one digit.
Mirrors the grammar `strconv.Atoi` accepts (before the int64 range check). -/
def parseIntRaw (s : String) : Option Int :=
  match s.data with
  | '+' :: cs => (digitsVal cs).map (fun n => (n : Int))
  | '-' :: cs => (digitsVal cs).map (fun n => -(n : Int))
  | cs => (digitsVal cs).map (fun n => (n : Int))

def int64Max : Int := 9223372036854775807

def int64Min : Int := -9223372036854775808

/-- The value component of Go `strconv.Atoi(s)` with the error discarded, as in
`interval, _ = strconv.Atoi(...)`: 0 on a syntax error, the nearest int64 bound on
a range error, the parsed value otherwise. -/
def Atoi (s : String) : Int :=
  match parseIntRaw s with
  | none => 0
  | some n => if n > int64Max then int64Max else if n < int64Min then int64Min else n

/-- Successful parse only: `some n` exactly when `s` is a well-formed integer
literal within the int64 range (the cases where Go `Atoi` returns a nil error). -/
def parseInt64 (s : String) : Option Int :=
  match parseIntRaw s with
  | none => none
  | some n => if n > int64Max ∨ n < int64Min then none else some n

/-- Interval selection in `main` (main.go lines 125-129):
`interval, _ = strconv.Atoi(os.Getenv("TM1_TRACKER_INTERVAL"))`
followed by `if interval < 1 { interval = 5 }`. -/
def trackerInterval (s : String) : Int :=
  if Atoi s < 1 then 5 else Atoi s

/-- The server-version gate of `main` (main.go lines 187-189) compares
`string(version)[0:10] < "10.2.20500"`.  Go strings compare bytewise, and a string
slice `s[lo:hi]` panics unless `lo ≤ hi ≤ len(s)`, so the version body is a byte
list and the gate is partial. -/
def bytesLt : List Nat → List Nat → Bool
  | [], [] => false
  | [], _ :: _ => true
  | _ :: _, [] => false
  | a :: as, b :: bs => if a < b then true else if b < a then false else bytesLt as bs

/-- Go slice expression `s[lo:hi]` on a byte string: defined only when
`lo ≤ hi ≤ len(s)`, otherwise the program panics (`none`). -/
def goSlice (s : List Nat) (lo hi : Nat) : Option (List Nat) :=
  if lo ≤ hi ∧ hi ≤ s.length then some ((s.drop lo).take (hi - lo)) else none

/-- UTF-8 bytes of the literal "10.2.20500". -/
def verMinBytes : List Nat := [49, 48, 46, 50, 46, 50, 48, 53, 48, 48]

/-- The unguarded version check `string(version)[0:10] < "10.2.20500"`:
`some true` means the server is rejected as too old, `some false` means it passes,
`none` means the slice was out of range and the program panics. -/
def versionGate (version : List Nat) : Option Bool :=
  (goSlice version 0 10).map (fun v => bytesLt v verMinBytes)

/-- Callback of the end-to-end scenario: the first body yields a next-page link,
the second yields only a delta link, the third yields neither. -/
def scenarioProcess : String → String × String
  | "b1" => ("p2", "")
  | "b2" => ("", "d1")
  | _ => ("", "")

/-- A callback that always asks for another delta: every cycle returns no next-page
link and the delta link "d". -/
def alwaysDelta : String → String × String :=
  fun _ => ("", "d")

/-- A callback that (erroneously, per the OData convention) reports both a
next-page link and a delta link on every response. -/
def bothTokens : String → String × String :=
  fun _ => ("p", "d")

/-- Concrete iterator callback: body "a" yields continuation link "t2", every other
body yields the empty link. -/
def iterProcW : String → Int × String
  | "a" => (1, "t2")
  | _ => (0, "")

/-- The injected sequences the Collection Iterator claim quantifies over: every
response but the last makes the callback yield a non-empty continuation link and
the last yields the empty one. -/
def chainedSeq (process : String → Int × String) : List String → Bool
  | [] => false
  | [b] => (process b).2 == ""
  | b :: rest => ((process b).2 != "") && chainedSeq process rest

/-- Expected request URLs of an iterator run: the first request targets
`base ++ urlStr` and request n+1 targets `base ++` the link returned by callback
invocation n. -/
def iterURLs (base : String) (process : String → Int × String) :
    List String → String → List String
  | [], _ => []
  | b :: rest, urlStr => (base ++ urlStr) :: iterURLs base process rest (process b).2

/-! ## Helper lemmas -/

/-- Whatever the callback returns, a cycle of the tracker that actually runs (the
current link is non-empty and a response is available) begins with the request for
`serviceRootURL ++ urlStr`. -/
lemma trackAux_head (base : String) (i : Int) (process : String → String × String)
    (b : String) (rs : List String) (u : String) (p : List String) (h : u ≠ "") :
    (TrackCollectionAux base i process (b :: rs) u p).1.head? =
      some (Event.request (trackRequest base u)) := by
  by_cases h1 : (process b).1 = "" <;> by_cases h2 : (process b).2 = "" <;>
    simp [TrackCollectionAux, h, h1, h2]

/-- No request event hides among deferred close events. -/
lemma request_not_mem_closes (r : Request) (l : List String) :
    Event.request r ∉ l.map Event.closeBody := by
  simp

/-- Every sleep event the tracker emits has exactly the interval it was called with. -/
lemma track_sleep_eq (base : String) (i : Int) (process : String → String × String) :
    ∀ (responses : List String) (urlStr : String) (pending : List String) (d : Int),
      Event.sleep d ∈ (TrackCollectionAux base i process responses urlStr pending).1 →
        d = i := by
  intro responses
  induction responses with
  | nil =>
    intro u p d hd
    by_cases h : u = "" <;> simp [TrackCollectionAux, h] at hd
  | cons b rest ih =>
    intro u p d hd
    by_cases h : u = ""
    · simp [TrackCollectionAux, h] at hd
    · by_cases h1 : (process b).1 = ""
      · by_cases h2 : (process b).2 = ""
        · simp [TrackCollectionAux, h, h1, h2] at hd
        · simp [TrackCollectionAux, h, h1, h2] at hd
          rcases hd with hd | hd
          · exact hd
          · exact ih _ _ _ hd
      · simp [TrackCollectionAux, h, h1] at hd
        exact ih _ _ _ hd

/-- Every request event the tracker emits is a `trackRequest` for some link. -/
lemma request_mem_trackAux (base : String) (i : Int) (process : String → String × String) :
    ∀ (responses : List String) (urlStr : String) (pending : List String) (r : Request),
      Event.request r ∈ (TrackCollectionAux base i process responses urlStr pending).1 →
        ∃ u, r = trackRequest base u := by
  intro responses
  induction responses with
  | nil =>
    intro u p r hr
    by_cases h : u = "" <;> simp [TrackCollectionAux, h] at hr
  | cons b rest ih =>
    intro u p r hr
    by_cases h : u = ""
    · simp [TrackCollectionAux, h] at hr
    · by_cases h1 : (process b).1 = ""
      · by_cases h2 : (process b).2 = ""
        · simp [TrackCollectionAux, h, h1, h2] at hr
          exact ⟨u, hr⟩
        · simp [TrackCollectionAux, h, h1, h2] at hr
          rcases hr with hr | hr
          · exact ⟨u, hr⟩
          · exact ih _ _ _ hr
      · simp [TrackCollectionAux, h, h1] at hr
        rcases hr with hr | hr
        · exact ⟨u, hr⟩
        · exact ih _ _ _ hr

/-- Deferred close events contribute no request URLs. -/
lemma requestURLs_closes (l : List String) :
    requestURLs (l.map Event.closeBody) = [] := by
  induction l with
  | nil => rfl
  | cons a l ih => simpa [requestURLs] using ih

/-- Deferred close events contribute no callback bodies. -/
lemma callbackBodies_closes (l : List String) :
    callbackBodies (l.map Event.closeBody) = [] := by
  induction l with
  | nil => rfl
  | cons a l ih => simpa [callbackBodies] using ih

/-- When Go `Atoi` reports no error, its value is the parsed integer. -/
lemma Atoi_eq_of_parseInt64 {s : String} {n : Int} (h : parseInt64 s = some n) :
    Atoi s = n := by
  unfold parseInt64 at h
  unfold Atoi
  cases hp : parseIntRaw s with
  | none => rw [hp] at h; simp at h
  | some m =>
    rw [hp] at h
    dsimp only at h ⊢
    by_cases hgt : m > int64Max ∨ m < int64Min
    · rw [if_pos hgt] at h; simp at h
    · rw [if_neg hgt] at h
      push_neg at hgt
      rw [if_neg (not_lt.mpr hgt.1), if_neg (not_lt.mpr hgt.2)]
      simpa using h

/-- One-step unfolding of the iterator loop when the continuation link is non-empty. -/
lemma iterAux_cons (base : String) (process : String → Int × String)
    (b : String) (rest : List String) (u : String) (p : List String) (hu : u ≠ "") :
    IterateCollectionAux base process (b :: rest) u p =
      (Event.request (ExecuteGETRequest (base ++ u)) :: Event.readBody b ::
          Event.callback b ::
          (IterateCollectionAux base process rest (process b).2 (b :: p)).1,
        (IterateCollectionAux base process rest (process b).2 (b :: p)).2) := by
  rw [IterateCollectionAux, if_neg hu]

/-- Core induction for the Collection Iterator: on a chained response sequence the
request URLs follow the callback-supplied links, each body reaches the callback
once in order, and the loop exits normally. -/
lemma iterate_walk (base : String) (process : String → Int × String) :
    ∀ (responses : List String) (urlStr : String) (pending : List String),
      urlStr ≠ "" → chainedSeq process responses = true →
      requestURLs (IterateCollectionAux base process responses urlStr pending).1 =
          iterURLs base process responses urlStr ∧
        callbackBodies (IterateCollectionAux base process responses urlStr pending).1 =
          responses ∧
        (IterateCollectionAux base process responses urlStr pending).2 = true := by
  intro responses
  induction responses with
  | nil => intro u p hu hc; simp [chainedSeq] at hc
  | cons b rest ih =>
    intro u p hu hc
    cases rest with
    | nil =>
      have hb : (process b).2 = "" := by simpa [chainedSeq] using hc
      rw [iterAux_cons base process b [] u p hu]
      simp [IterateCollectionAux, hb, requestURLs, callbackBodies, iterURLs,
        requestURLs_closes, callbackBodies_closes, ExecuteGETRequest, addHeader,
        newRequest]
    | cons b2 rest2 =>
      have hc2 : (process b).2 ≠ "" ∧ chainedSeq process (b2 :: rest2) = true := by
        simpa [chainedSeq] using hc
      obtain ⟨ih1, ih2, ih3⟩ := ih (process b).2 (b :: p) hc2.1 hc2.2
      rw [iterAux_cons base process b (b2 :: rest2) u p hu]
      simp [requestURLs, callbackBodies, iterURLs, ih1, ih2, ih3,
        ExecuteGETRequest, addHeader, newRequest]

/-- With a callback that always returns a delta link, n injected responses produce n
requests and not a single body close: the deferred closes only ever run when
`TrackCollection` returns, which this loop does not do. -/
lemma track_leak_aux :
    ∀ (n : Nat) (urlStr : String) (pending : List String), urlStr ≠ "" →
      countRequests
          (TrackCollectionAux "B/" 1 alwaysDelta (List.replicate n "b") urlStr pending).1 =
          n ∧
        countCloses
          (TrackCollectionAux "B/" 1 alwaysDelta (List.replicate n "b") urlStr pending).1 =
          0 := by
  intro n
  induction n with
  | zero =>
    intro u p hu
    simp [TrackCollectionAux, hu, countRequests, countCloses]
  | succ n ih =>
    intro u p hu
    have hrec := ih "d" ("b" :: p) (by decide)
    simp [List.replicate_succ, TrackCollectionAux, hu, alwaysDelta,
      countRequests, countCloses, hrec.1, hrec.2]

/-- One-step unfolding of the tracker loop in its continue-with-nextLink branch. -/
lemma trackAux_cons_next (base : String) (i : Int) (process : String → String × String)
    (b : String) (rest : List String) (u : String) (p : List String)
    (hu : u ≠ "") (h1 : (process b).1 ≠ "") :
    TrackCollectionAux base i process (b :: rest) u p =
      (Event.request (trackRequest base u) :: Event.readBody b :: Event.callback b ::
          (TrackCollectionAux base i process rest (process b).1 (b :: p)).1,
        (TrackCollectionAux base i process rest (process b).1 (b :: p)).2) := by
  rw [TrackCollectionAux, if_neg hu, if_pos h1]

/-- One-step unfolding of the tracker loop in its sleep-then-deltaLink branch. -/
lemma trackAux_cons_delta (base : String) (i : Int) (process : String → String × String)
    (b : String) (rest : List String) (u : String) (p : List String)
    (hu : u ≠ "") (h1 : (process b).1 = "") (h2 : (process b).2 ≠ "") :
    TrackCollectionAux base i process (b :: rest) u p =
      (Event.request (trackRequest base u) :: Event.readBody b :: Event.callback b ::
          Event.sleep i ::
          (TrackCollectionAux base i process rest (process b).2 (b :: p)).1,
        (TrackCollectionAux base i process rest (process b).2 (b :: p)).2) := by
  rw [TrackCollectionAux, if_neg hu, if_neg (by simp [h1]), if_pos h2]

/-- One-step unfolding of the tracker loop in its break branch: both tokens empty. -/
lemma trackAux_cons_stop (base : String) (i : Int) (process : String → String × String)
    (b : String) (rest : List String) (u : String) (p : List String)
    (hu : u ≠ "") (h1 : (process b).1 = "") (h2 : (process b).2 = "") :
    TrackCollectionAux base i process (b :: rest) u p =
      (Event.request (trackRequest base u) :: Event.readBody b :: Event.callback b ::
          (b :: p).map Event.closeBody, true) := by
  rw [TrackCollectionAux, if_neg hu, if_neg (by simp [h1]), if_neg (by simp [h2])]

/-! ## The claims -/

/-- C1: per cycle of `TrackCollection`, after the callback returns
`(nextLink, deltaLink)`: with `nextLink` non-empty the loop continues at once — the
cycle's events are the request for `base ++ urlStr`, the body read, the callback,
and then directly the continuation, whose first event (whenever another response is
available) is the request for `base ++ nextLink`, with no sleep in between; with
`nextLink` empty and `deltaLink` non-empty exactly one sleep of the configured
interval separates the callback from the continuation, whose first event is the
request for `base ++ deltaLink`; with both empty the loop stops issuing requests
(only the deferred body closes follow) and returns control normally (`true`). -/
theorem trackCollection_cycle (base urlStr : String) (interval : Int)
    (process : String → String × String) (body : String)
    (rest pending : List String) (h : urlStr ≠ "") :
    ((process body).1 ≠ "" →
      TrackCollectionAux base interval process (body :: rest) urlStr pending =
        (Event.request (trackRequest base urlStr) :: Event.readBody body ::
            Event.callback body ::
            (TrackCollectionAux base interval process rest (process body).1
              (body :: pending)).1,
          (TrackCollectionAux base interval process rest (process body).1
            (body :: pending)).2) ∧
      (rest ≠ [] →
        (TrackCollectionAux base interval process rest (process body).1
            (body :: pending)).1.head? =
          some (Event.request (trackRequest base (process body).1)))) ∧
    ((process body).1 = "" → (process body).2 ≠ "" →
      TrackCollectionAux base interval process (body :: rest) urlStr pending =
        (Event.request (trackRequest base urlStr) :: Event.readBody body ::
            Event.callback body :: Event.sleep interval ::
            (TrackCollectionAux base interval process rest (process body).2
              (body :: pending)).1,
          (TrackCollectionAux base interval process rest (process body).2
            (body :: pending)).2) ∧
      (rest ≠ [] →
        (TrackCollectionAux base interval process rest (process body).2
            (body :: pending)).1.head? =
          some (Event.request (trackRequest base (process body).2)))) ∧
    ((process body).1 = "" → (process body).2 = "" →
      TrackCollectionAux base interval process (body :: rest) urlStr pending =
        (Event.request (trackRequest base urlStr) :: Event.readBody body ::
            Event.callback body :: (body :: pending).map Event.closeBody, true) ∧
      ∀ r, Event.request r ∉ (body :: pending).map Event.closeBody) := by
  refine ⟨fun h1 => ⟨?_, ?_⟩, fun h1 h2 => ⟨?_, ?_⟩, fun h1 h2 => ⟨?_, ?_⟩⟩
  · exact trackAux_cons_next base interval process body rest urlStr pending h h1
  · intro hrest
    obtain ⟨b2, rs2, rfl⟩ := List.exists_cons_of_ne_nil hrest
    exact trackAux_head base interval process b2 rs2 (process body).1 (body :: pending) h1
  · exact trackAux_cons_delta base interval process body rest urlStr pending h h1 h2
  · intro hrest
    obtain ⟨b2, rs2, rfl⟩ := List.exists_cons_of_ne_nil hrest
    exact trackAux_head base interval process b2 rs2 (process body).2 (body :: pending) h2
  · exact trackAux_cons_stop base interval process body rest urlStr pending h h1 h2
  · intro r
    exact request_not_mem_closes r (body :: pending)

/-- C1 witness: the pagination case at concrete inputs — url "col", response "b1"
whose callback result is ("p2", ""). -/
theorem trackCollection_cycle_witness :
    TrackCollectionAux "B/" 2 scenarioProcess ["b1", "b2"] "col" [] =
      (Event.request (trackRequest "B/" "col") :: Event.readBody "b1" ::
          Event.callback "b1" ::
          (TrackCollectionAux "B/" 2 scenarioProcess ["b2"] (scenarioProcess "b1").1
            ["b1"]).1,
        (TrackCollectionAux "B/" 2 scenarioProcess ["b2"] (scenarioProcess "b1").1
          ["b1"]).2) :=
  ((trackCollection_cycle "B/" "col" 2 scenarioProcess "b1" ["b2"] []
      (by decide)).1 (by decide)).1

/-- C2: when a response (erroneously) carries both tokens non-empty, the tracker
takes the pagination branch: the cycle's trace continues with the nextLink
continuation, no sleep occurs, and the deltaLink appears nowhere — the resulting
state is exactly that of a response carrying only the nextLink. -/
theorem trackCollection_next_priority (base urlStr : String) (interval : Int)
    (process : String → String × String) (body : String)
    (rest pending : List String) (h : urlStr ≠ "")
    (hn : (process body).1 ≠ "") (_hd : (process body).2 ≠ "") :
    TrackCollectionAux base interval process (body :: rest) urlStr pending =
      (Event.request (trackRequest base urlStr) :: Event.readBody body ::
          Event.callback body ::
          (TrackCollectionAux base interval process rest (process body).1
            (body :: pending)).1,
        (TrackCollectionAux base interval process rest (process body).1
          (body :: pending)).2) ∧
    (rest ≠ [] →
      (TrackCollectionAux base interval process rest (process body).1
          (body :: pending)).1.head? =
        some (Event.request (trackRequest base (process body).1))) := by
  refine ⟨trackAux_cons_next base interval process body rest urlStr pending h hn, ?_⟩
  intro hrest
  obtain ⟨b2, rs2, rfl⟩ := List.exists_cons_of_ne_nil hrest
  exact trackAux_head base interval process b2 rs2 (process body).1 (body :: pending) hn

/-- C2 witness: a callback returning ("p", "d") on every body — the trace continues
with "p" and never sleeps during the cycle. -/
theorem trackCollection_next_priority_witness :
    TrackCollectionAux "B/" 3 bothTokens ["b1", "b2"] "col" [] =
      (Event.request (trackRequest "B/" "col") :: Event.readBody "b1" ::
          Event.callback "b1" ::
          (TrackCollectionAux "B/" 3 bothTokens ["b2"] (bothTokens "b1").1 ["b1"]).1,
        (TrackCollectionAux "B/" 3 bothTokens ["b2"] (bothTokens "b1").1 ["b1"]).2) :=
  (trackCollection_next_priority "B/" "col" 3 bothTokens "b1" ["b2"] []
      (by decide) (by decide) (by decide)).1

/-- C3: on the injected three-response scenario — "b1" yielding nextLink "p2",
"b2" yielding only deltaLink "d1", "b3" yielding neither — the tracker issues
exactly 3 requests, invokes the callback exactly on "b1", "b2", "b3" in order,
sleeps exactly once for the configured interval between the second and third
request, targets `base ++ "d1"` with the third request, and then stops normally
(the trailing events are only the deferred body closes). -/
theorem trackCollection_scenario (base : String) (interval : Int) :
    TrackCollection base "col" interval scenarioProcess ["b1", "b2", "b3"] =
      ([Event.request (trackRequest base "col"), Event.readBody "b1",
        Event.callback "b1",
        Event.request (trackRequest base "p2"), Event.readBody "b2",
        Event.callback "b2",
        Event.sleep interval,
        Event.request (trackRequest base "d1"), Event.readBody "b3",
        Event.callback "b3",
        Event.closeBody "b3", Event.closeBody "b2", Event.closeBody "b1"], true) :=
  rfl

/-- C4: over any injected response sequence whose callback results chain — every
response but the last yields a non-empty continuation link, the last yields the
empty one — `IterateCollection` requests first `base ++ urlStr` and then, for each
later request, exactly `base ++` the link returned by the previous callback
invocation; the callback runs exactly once per response, on the bodies in order;
and the loop terminates normally when the callback returns the empty string. -/
theorem iterateCollection_walk (base urlStr : String) (process : String → Int × String)
    (responses : List String) (h : urlStr ≠ "")
    (hseq : chainedSeq process responses = true) :
    requestURLs (IterateCollection base urlStr process responses).1 =
        iterURLs base process responses urlStr ∧
      callbackBodies (IterateCollection base urlStr process responses).1 = responses ∧
      (IterateCollection base urlStr process responses).2 = true :=
  iterate_walk base process responses urlStr [] h hseq

/-- C4 witness: two responses, the first chaining to link "t2", the second ending
the walk. -/
theorem iterateCollection_walk_witness :
    requestURLs (IterateCollection "B/" "col" iterProcW ["a", "b"]).1 =
        iterURLs "B/" iterProcW ["a", "b"] "col" ∧
      callbackBodies (IterateCollection "B/" "col" iterProcW ["a", "b"]).1 =
        ["a", "b"] ∧
      (IterateCollection "B/" "col" iterProcW ["a", "b"]).2 = true :=
  iterateCollection_walk "B/" "col" iterProcW ["a", "b"] (by decide) (by decide)

/-- C5: every request the `TrackCollection` loop issues — in any cycle, including
the cycles entered through a delta link — carries the OData-Version header with
literal value "4.0", the Accept header requesting application/json, and the Prefer
header with value odata.track-changes. -/
theorem trackCollection_headers (base : String) (interval : Int)
    (process : String → String × String) (responses : List String)
    (urlStr : String) (pending : List String) (r : Request)
    (h : Event.request r ∈
      (TrackCollectionAux base interval process responses urlStr pending).1) :
    Header.mk "OData-Version" "4.0" ∈ r.headers ∧
      Header.mk "Accept" "application/json" ∈ r.headers ∧
      Header.mk "Prefer" "odata.track-changes" ∈ r.headers := by
  obtain ⟨u, rfl⟩ :=
    request_mem_trackAux base interval process responses urlStr pending r h
  refine ⟨?_, ?_, ?_⟩ <;>
    simp [trackRequest, ExecuteGETRequestEx, addHeader, newRequest]

/-- C5 witness: the request of a delta-following cycle of a concrete run carries all
three headers. -/
theorem trackCollection_headers_witness :
    Header.mk "OData-Version" "4.0" ∈ (trackRequest "B/" "d").headers ∧
      Header.mk "Accept" "application/json" ∈ (trackRequest "B/" "d").headers ∧
      Header.mk "Prefer" "odata.track-changes" ∈ (trackRequest "B/" "d").headers :=
  trackCollection_headers "B/" 1 alwaysDelta ["b", "b"] "u" [] (trackRequest "B/" "d")
    (by decide)

/-- C6 counterexample: the claim says that on a status mismatch the body is closed,
but `ValidateStatusCode` only registers the close with `defer` and then calls
`log.Fatal`, which is `os.Exit(1)` — and `os.Exit` does not run deferred functions.
On the concrete mismatch (status 404, expected 200) no close is executed. -/
theorem validateStatusCode_close_counterexample :
    BodyAction.close ∉
      (ValidateStatusCode ⟨404, "404 Not Found", "missing"⟩ 200 (fun _ => "ctx")).2 := by
  decide

/-- C6 (amended): on a status mismatch `ValidateStatusCode` drains the body (the
registered deferred close never executes, because the fatal exit bypasses deferred
functions) and fails fatally with the diagnostic combining the caller-supplied
context string, the actual status line, and the raw body text; on a match it has
no effect and the body remains open for the caller. -/
theorem validateStatusCode_behavior (resp : HTTPResponse) (code : Nat)
    (logFmt : Unit → String) :
    (resp.statusCode ≠ code →
      ValidateStatusCode resp code logFmt =
        (ValidateOutcome.fatal
            (logFmt () ++ "\r\nServer responded with: " ++ resp.status ++ "\r\n" ++
              resp.body),
          [BodyAction.read])) ∧
    (resp.statusCode = code →
      ValidateStatusCode resp code logFmt = (ValidateOutcome.ok, [])) := by
  constructor
  · intro h
    rw [ValidateStatusCode, if_pos h]
  · intro h
    rw [ValidateStatusCode, if_neg (by simp [h])]

/-- C6 witness: the mismatch branch evaluated at a concrete 404 response. -/
theorem validateStatusCode_behavior_witness :
    ValidateStatusCode ⟨404, "404 Not Found", "missing"⟩ 200 (fun _ => "version check") =
      (ValidateOutcome.fatal
          ("version check" ++ "\r\nServer responded with: " ++ "404 Not Found" ++
            "\r\n" ++ "missing"),
        [BodyAction.read]) :=
  (validateStatusCode_behavior ⟨404, "404 Not Found", "missing"⟩ 200
      (fun _ => "version check")).1 (by decide)

/-- C7: the `defer resp.Body.Close()` of `TrackCollection` sits inside the loop, so
the closes only run when the function returns; with a server that keeps handing out
delta links the loop never returns, and after n cycles n response bodies have been
opened and none closed — the open-body count is not bounded by any constant
independent of the cycle count, contradicting the claim. -/
theorem trackCollection_close_leak :
    (∀ n : Nat,
      countRequests
          (TrackCollection "B/" "u" 1 alwaysDelta (List.replicate n "b")).1 = n ∧
        countCloses
          (TrackCollection "B/" "u" 1 alwaysDelta (List.replicate n "b")).1 = 0) ∧
    ¬ ∃ C : Nat, ∀ n : Nat,
        countRequests (TrackCollection "B/" "u" 1 alwaysDelta (List.replicate n "b")).1 -
            countCloses (TrackCollection "B/" "u" 1 alwaysDelta (List.replicate n "b")).1 ≤
          C := by
  have hmain : ∀ n : Nat,
      countRequests
          (TrackCollection "B/" "u" 1 alwaysDelta (List.replicate n "b")).1 = n ∧
        countCloses
          (TrackCollection "B/" "u" 1 alwaysDelta (List.replicate n "b")).1 = 0 :=
    fun n => track_leak_aux n "u" [] (by decide)
  refine ⟨hmain, ?_⟩
  rintro ⟨C, hC⟩
  have h1 := hC (C + 1)
  rw [(hmain (C + 1)).1, (hmain (C + 1)).2] at h1
  omega

/-- C8 counterexample: the claim says a valid configured value is used as the
interval, but the code maps every Atoi result below 1 to 5, so the valid value "0"
(which parses to 0) yields interval 5, not 0. -/
theorem trackerInterval_counterexample :
    ¬ ∀ (s : String) (n : Int), parseInt64 s = some n → trackerInterval s = n :=
  fun h => absurd (h "0" 0 (by decide)) (by decide)

/-- C8 (amended): the polling interval equals the configured value whenever that
value parses as an integer that is at least 1; whenever the value Go Atoi yields is
below 1 — the string absent, non-numeric (both give 0), zero, or negative — the
interval is 5, and otherwise it is exactly Atoi's value (an out-of-int64-range
string is clamped by Atoi); the chosen value is fixed before the tracker starts:
every sleep of a tracking run lasts exactly the chosen interval. -/
theorem trackerInterval_behavior (s : String) :
    (∀ n : Int, parseInt64 s = some n → 1 ≤ n → trackerInterval s = n) ∧
    (Atoi s < 1 → trackerInterval s = 5) ∧
    (1 ≤ Atoi s → trackerInterval s = Atoi s) ∧
    (∀ (base urlStr : String) (process : String → String × String)
        (responses pending : List String) (d : Int),
      Event.sleep d ∈
          (TrackCollectionAux base (trackerInterval s) process responses urlStr
            pending).1 →
        d = trackerInterval s) := by
  refine ⟨?_, ?_, ?_, ?_⟩
  · intro n hp hn
    have ha := Atoi_eq_of_parseInt64 hp
    rw [trackerInterval, ha, if_neg (by omega)]
  · intro h
    rw [trackerInterval, if_pos h]
  · intro h
    rw [trackerInterval, if_neg (by omega)]
  · intro base urlStr process responses pending d hd
    exact track_sleep_eq base (trackerInterval s) process responses urlStr pending d hd

/-- C8 witness: the configured value "7" parses, is at least 1, and is used as is. -/
theorem trackerInterval_behavior_witness : trackerInterval "7" = 7 :=
  (trackerInterval_behavior "7").1 7 (by decide) (by decide)

/-- C9: the version gate compares exactly the first 10 bytes of the response body
lexicographically against "10.2.20500", and the unguarded slice makes it defined
only for bodies of at least 10 bytes: any shorter body leaves the operation with no
result (the slice panics). -/
theorem versionGate_first_ten_bytes (version : List Nat) :
    (10 ≤ version.length →
      versionGate version = some (bytesLt (version.take 10) verMinBytes)) ∧
    (version.length < 10 → versionGate version = none) := by
  constructor
  · intro h
    simp [versionGate, goSlice, h]
  · intro h
    have hn : ¬ (0 ≤ 10 ∧ 10 ≤ version.length) := by omega
    simp only [versionGate, goSlice, if_neg hn]
    rfl

/-- C9 witness: the exact minimum version body passes the gate (it is not
lexicographically below itself). -/
theorem versionGate_first_ten_bytes_witness :
    versionGate [49, 48, 46, 50, 46, 50, 48, 53, 48, 48] = some false :=
  (versionGate_first_ten_bytes [49, 48, 46, 50, 46, 50, 48, 53, 48, 48]).1 (by decide)

/-- C10: with a hook that performs no modification, `ExecuteGETRequestEx` builds and
sends exactly the request of `ExecuteGETRequest` for the same URL — same method,
URL, headers, and absent body; `ExecuteGETRequest` is the no-op-hook special case
of `ExecuteGETRequestEx`. -/
theorem executeGETRequest_noop_hook (urlStr : String) :
    ExecuteGETRequestEx urlStr (fun req => req) = ExecuteGETRequest urlStr ∧
      (ExecuteGETRequestEx urlStr (fun req => req)).body = none :=
  ⟨rfl, rfl⟩

end OData
